import Mathlib

/-!
Verification of the naev OpenAL sound backend (`src/sound_openal.c`).

The C code is shallowly embedded: the static pool arrays become lists
(the free stack `source_stack[0..source_nstack)` is modelled with the
top of the stack as the head of the list), OpenAL calls become explicit
action traces, the hardware playback state of a source is an oracle
function `Nat → ALstate`, machine floats (`ALfloat`) become rationals,
and wall-clock ticks become naturals.
-/

set_option autoImplicit false

namespace SoundAL

/-- Hardware playback state of an OpenAL source (`AL_SOURCE_STATE`). -/
inductive ALstate where
  | initial
  | playing
  | paused
  | stopped
deriving DecidableEq, Repr

/-- Voice / group logical state (`voice_state_t` from sound.h). -/
inductive VoiceState where
  | playing   -- VOICE_PLAYING
  | stopped   -- VOICE_STOPPED
  | destroy   -- VOICE_DESTROY
  | fadeout   -- VOICE_FADEOUT
deriving DecidableEq, Repr

/-- One OpenAL call issued by the engine.  Sources and buffers are
`Nat` handles (0 is the null handle `AL_NONE`); gains are rationals. -/
inductive ALaction where
  | sourceStop (s : Nat)                      -- alSourceStop
  | sourcePause (s : Nat)                     -- alSourcePause
  | sourcePlay (s : Nat)                      -- alSourcePlay
  | setBuffer (s : Nat) (b : Nat)             -- alSourcei AL_BUFFER
  | setGain (s : Nat) (g : ℚ)                 -- alSourcef AL_GAIN
  | setRelative (s : Nat) (r : Bool)          -- alSourcei AL_SOURCE_RELATIVE
  | setLooping (s : Nat) (l : Bool)           -- alSourcei AL_LOOPING
  | setPosition (s : Nat) (p : ℚ × ℚ × ℚ)     -- alSourcefv AL_POSITION
  | setVelocity (s : Nat) (v : ℚ × ℚ × ℚ)     -- alSourcefv AL_VELOCITY
deriving DecidableEq, Repr

/-- A group (`alGroup_t`): id, member sources, state, fade timestamp. -/
structure AlGroup where
  id : Int
  sources : List Nat
  state : VoiceState
  fade_timer : Nat
deriving DecidableEq, Repr

/-- A voice's backend payload (`alVoice.u.al` plus `alVoice.state`). -/
structure AlVoice where
  source : Nat
  buffer : Nat
  state : VoiceState
  pos : ℚ × ℚ × ℚ
  vel : ℚ × ℚ × ℚ
deriving DecidableEq, Repr

/-! ## Source pool (`sound_al_getSource`, `al_playVoice`)

The free pool is `source_stack` with `source_nstack` live entries; we
model it as a list whose head is the top of the stack. -/

/-- `sound_al_getSource`: pop a free source, or return the sentinel 0
when the pool is exhausted, leaving the pool untouched. -/
def sound_al_getSource : List Nat → Nat × List Nat
  | [] => (0, [])
  | s :: rest => (s, rest)

/-- `al_playVoice`: acquire a source; on the 0 sentinel return -1 at
once with no OpenAL call; otherwise attach the buffer, set relative
mode, cache position/velocity, push gain (the global volume
`svolume`), position and velocity, and start playback.
Result: (return value, voice, free pool, OpenAL trace). -/
def al_playVoice (svol : ℚ) (stack : List Nat) (v : AlVoice) (sbuf : Nat)
    (px py vx vy : ℚ) (relative : Bool) :
    Int × AlVoice × List Nat × List ALaction :=
  let r := sound_al_getSource stack
  let v1 : AlVoice := { v with source := r.1 }
  if r.1 = 0 then (-1, v1, r.2, [])
  else
    let v2 : AlVoice :=
      { v1 with
        buffer := sbuf
        pos := (px, py, 0)
        vel := (vx, vy, 0) }
    (0, v2, r.2,
      [ .setBuffer r.1 sbuf, .setRelative r.1 relative,
        .setGain r.1 svol, .setPosition r.1 v2.pos,
        .setVelocity r.1 v2.vel, .sourcePlay r.1 ])

/-- `sound_al_play`: play a non-positional (listener-relative) sound. -/
def sound_al_play (svol : ℚ) (stack : List Nat) (v : AlVoice) (sbuf : Nat) :
    Int × AlVoice × List Nat × List ALaction :=
  al_playVoice svol stack v sbuf 0 0 0 0 true

/-- `sound_al_playPos`: play a positional sound. -/
def sound_al_playPos (svol : ℚ) (stack : List Nat) (v : AlVoice) (sbuf : Nat)
    (px py vx vy : ℚ) : Int × AlVoice × List Nat × List ALaction :=
  al_playVoice svol stack v sbuf px py vx vy false

/-! ## Stopping and pausing (`sound_al_stop`, `al_pausev`, `al_resumev`) -/

/-- `sound_al_stop`: issue a hardware stop only when the voice still
holds a non-zero source; the voice record itself is never written. -/
def sound_al_stop (voice : AlVoice) : AlVoice × List ALaction :=
  (voice, if voice.source ≠ 0 then [.sourceStop voice.source] else [])

/-- `al_pausev`: pause exactly the sources currently in the hardware
`AL_PLAYING` state; `hw` is the hardware state oracle. -/
def al_pausev (hw : Nat → ALstate) (srcs : List Nat) : List ALaction :=
  srcs.filterMap fun s =>
    if hw s = .playing then some (.sourcePause s) else none

/-- `al_resumev`: restart exactly the sources currently `AL_PAUSED`. -/
def al_resumev (hw : Nat → ALstate) (srcs : List Nat) : List ALaction :=
  srcs.filterMap fun s =>
    if hw s = .paused then some (.sourcePlay s) else none

/-! ## Global volume (`sound_al_volume`, `sound_al_getVolume`)

`svolume` is an `ALfloat` (IEEE-754 binary32); the setter performs the
C cast `(ALfloat) vol` from `double`.  The cast is modelled as exact
round-to-nearest-even to a 24-bit significand on dyadic rationals
(overflow to infinity and subnormal rounding lie far outside the
volume range and are not modelled). -/

/-- Round a rational to the nearest integer, ties to even
(IEEE-754 default rounding of the significand). -/
def rne (x : ℚ) : ℤ :=
  let fl := ⌊x⌋
  let fr := x - (fl : ℚ)
  if fr < 1/2 then fl
  else if 1/2 < fr then fl + 1
  else if fl % 2 = 0 then fl else fl + 1

/-- `⌊log₂ q⌋` for a positive rational: the unique `e` with
`2^e ≤ q < 2^(e+1)`. -/
def floorLog2 (q : ℚ) : ℤ :=
  let k : ℤ := (Nat.log2 q.num.natAbs : ℤ) - (Nat.log2 q.den : ℤ)
  if (2:ℚ) ^ k ≤ q then k else k - 1

/-- The C cast `(ALfloat) vol`: round a binary64 value (a dyadic
rational) to the nearest binary32 value, ties to even. -/
def round32 (q : ℚ) : ℚ :=
  if q = 0 then 0
  else
    let sgn : ℚ := if q < 0 then -1 else 1
    let a := |q|
    let e := floorLog2 a
    sgn * (rne (a * (2:ℚ) ^ (23 - e)) : ℚ) * (2:ℚ) ^ (e - 23)

/-- A rational is exactly representable as an IEEE binary64 with
exponent 0, i.e. is `m / 2^52` for an integer `m` (enough to exhibit
doubles in `[1, 2)`). -/
def repr64 (q : ℚ) : Prop := ∃ m : ℤ, q = (m : ℚ) / 2 ^ 52

/-- `sound_al_volume`: store the cast value in `svolume`, touch no
source, return 0.  Result: (return value, new `svolume`, trace). -/
def sound_al_volume (vol : ℚ) : Int × ℚ × List ALaction :=
  (0, round32 vol, [])

/-- `sound_al_getVolume`: return the stored `svolume`. -/
def sound_al_getVolume (svolume : ℚ) : ℚ := svolume

/-! ## Group creation (`sound_al_createGroup`)

Engine state fragment touched by `sound_al_createGroup`: the free
stack, the general-purpose list `source_total[0..source_ntotal)`, the
group list and the id generator. -/

/-- Pool/group state (`source_stack`, `source_total`, `al_groups`,
`al_groupidgen`). -/
structure PoolState where
  source_stack : List Nat
  source_total : List Nat
  al_groups : List AlGroup
  al_groupidgen : Int
deriving DecidableEq, Repr

/-- Remove the first occurrence of `x` (the inner `j` scan over
`source_total` with `memmove`). -/
def removeFirst (x : Nat) : List Nat → List Nat
  | [] => []
  | y :: ys => if y = x then ys else y :: removeFirst x ys

/-- The source-acquisition loop of `sound_al_createGroup`: pull `n`
sources off the free stack, removing each from `source_total` as it
goes.  On exhaustion it stops where it stands — the sources already
pulled are NOT pushed back (the `group_err` path only frees the
member array and drops the group).  Returns (member list if complete,
final stack, final total). -/
def createGroupAux : Nat → List Nat → List Nat → List Nat →
    Option (List Nat) × List Nat × List Nat
  | 0, acc, stack, total => (some acc.reverse, stack, total)
  | Nat.succ n, acc, stack, total =>
    match stack with
    | [] => (none, [], total)
    | s :: rest => createGroupAux n (s :: acc) rest (removeFirst s total)

/-- `sound_al_createGroup`: allocate a fresh id, reserve `size`
sources.  On success append the group and return the id; on failure
return 0 with the group list unchanged but the partially consumed
pool left as the loop exited (the id generator advances either way). -/
def sound_al_createGroup (st : PoolState) (size : Nat) : Int × PoolState :=
  let id := st.al_groupidgen + 1
  match createGroupAux size [] st.source_stack st.source_total with
  | (some srcs, stack, total) =>
    (id, { st with
           al_groupidgen := id
           source_stack := stack
           source_total := total
           al_groups := st.al_groups ++ [⟨id, srcs, .playing, 0⟩] })
  | (none, stack, total) =>
    (0, { st with
          al_groupidgen := id
          source_stack := stack
          source_total := total })

/-! ## Stopping a group (`sound_al_stopGroup`)

In the C loop the `break` sits after the `if`, inside the `for` body:
the loop always terminates after examining index 0, so only a group
stored at index 0 can ever be transitioned. -/

/-- `sound_al_stopGroup`: examine only the first group; if its id
matches, mark it `VOICE_FADEOUT` and stamp `fade_timer` with the
current tick; no OpenAL call is made. -/
def sound_al_stopGroup (groups : List AlGroup) (gid : Int) (now : Nat) :
    List AlGroup :=
  match groups with
  | [] => []
  | g :: rest =>
    if g.id = gid then { g with state := .fadeout, fade_timer := now } :: rest
    else g :: rest

/-! ## Playing into a group (`sound_al_playGroup`) -/

/-- The OpenAL calls that bind buffer `buf` to source `s` and start
it: attach, non-positional, looping unless `once`, play. -/
def playActs (buf : Nat) (once : Bool) (s : Nat) : List ALaction :=
  [.setBuffer s buf, .setRelative s true, .setLooping s (!once), .sourcePlay s]

/-- The inner `j` loop of `sound_al_playGroup`: skip members that are
`AL_PLAYING`/`AL_PAUSED`; the last member is special-cased — if it is
not `AL_STOPPED` it is force-stopped (gain restored) and reused.
Returns the source played and the trace, or `none` for an empty
member array (the loop falls through). -/
def playGroupScan (hw : Nat → ALstate) (svol : ℚ) (buf : Nat) (once : Bool) :
    List Nat → Option (Nat × List ALaction)
  | [] => none
  | [s] =>
    let pre : List ALaction :=
      if hw s ≠ .stopped then [.sourceStop s, .setGain s svol] else []
    some (s, pre ++ playActs buf once s)
  | s :: s2 :: rest =>
    if hw s = .playing ∨ hw s = .paused then
      playGroupScan hw svol buf once (s2 :: rest)
    else some (s, playActs buf once s)

/-- `sound_al_playGroup`: find the group by id (its state is set to
`VOICE_PLAYING` before the member scan), play on the member the scan
selects.  Returns -1 when no group matches, or when the matched group
has an empty member array. -/
def sound_al_playGroup (hw : Nat → ALstate) (svol : ℚ) (groups : List AlGroup)
    (gid : Int) (buf : Nat) (once : Bool) : Int × List AlGroup × List ALaction :=
  match groups with
  | [] => (-1, [], [])
  | g :: rest =>
    if g.id = gid then
      let g1 : AlGroup := { g with state := .playing }
      match playGroupScan hw svol buf once g.sources with
      | some p => (0, g1 :: rest, p.2)
      | none => (-1, g1 :: rest, [])
    else
      let r := sound_al_playGroup hw svol rest gid buf once
      (r.1, g :: r.2.1, r.2.2)

/-! ## Per-voice sweep (`sound_al_updateVoice`) -/

/-- `sound_al_updateVoice`: a voice with the 0 source handle is marked
`VOICE_DESTROY`.  Otherwise, if the hardware reports `AL_STOPPED`, the
buffer is detached (`AL_BUFFER := AL_NONE`), the source is pushed back
on the free stack, the voice's handle is zeroed and it is marked
`VOICE_STOPPED`; otherwise the cached gain (global volume), position
and velocity are pushed to hardware. -/
def sound_al_updateVoice (hw : Nat → ALstate) (svol : ℚ)
    (stack : List Nat) (v : AlVoice) : AlVoice × List Nat × List ALaction :=
  if v.source = 0 then ({ v with state := .destroy }, stack, [])
  else if hw v.source = .stopped then
    ({ v with source := 0, state := .stopped }, v.source :: stack,
     [.setBuffer v.source 0])
  else
    (v, stack,
     [.setGain v.source svol, .setPosition v.source v.pos,
      .setVelocity v.source v.vel])

/-! ## Per-frame group fade update (`sound_al_update`) -/

/-- The fixed fadeout window, in ms (`SOUND_FADEOUT`). -/
def SOUND_FADEOUT : Nat := 100

/-- Gain applied to a fading member after `f` ms:
`(1 - f/SOUND_FADEOUT) * svolume`. -/
def fadeGain (svol : ℚ) (f : Nat) : ℚ :=
  (1 - (f : ℚ) / (SOUND_FADEOUT : ℚ)) * svol

/-- One group's slice of `sound_al_update` at tick `t`: a fading group
with elapsed `f = t - fade_timer < SOUND_FADEOUT` has every member's
gain scaled to `fadeGain svol f`; once `f ≥ SOUND_FADEOUT` every
member is stopped, its buffer detached and its gain restored to the
full global volume, and the group returns to `VOICE_PLAYING`.
(The C elapsed time is unsigned wrap-around arithmetic; `t` at or
after `fade_timer`, the only case the engine produces, is modelled.) -/
def updateGroup (svol : ℚ) (t : Nat) (g : AlGroup) : AlGroup × List ALaction :=
  if g.state = .fadeout then
    let f := t - g.fade_timer
    if f < SOUND_FADEOUT then
      (g, g.sources.map fun s => ALaction.setGain s (fadeGain svol f))
    else
      ({ g with state := .playing },
       g.sources.flatMap fun s =>
         [ALaction.sourceStop s, ALaction.setBuffer s 0, ALaction.setGain s svol])
  else (g, [])

/-- `sound_al_update`: apply `updateGroup` to every group in order,
concatenating the traces. -/
def sound_al_update (svol : ℚ) (t : Nat) (groups : List AlGroup) :
    List AlGroup × List ALaction :=
  (groups.map fun g => (updateGroup svol t g).1,
   groups.flatMap fun g => (updateGroup svol t g).2)

/-! ## WAV loading (`sound_al_loadWav` and helpers)

The `SDL_RWops` byte stream is a `List Nat` of the remaining bytes.
`SDL_RWread(rw, buf, n, 1)` on a memory stream returns 1 only when all
`n` bytes are available, so a short read is a parse error in the
helpers (`sound_al_wavReadCmp`, `sound_al_wavGetLen16/32`).  The data
drain loop at the end of `sound_al_loadWav` is different: it adds the
byte count of each raw read (`SDL_RWread(rw, &buf[i], 1, chunklen-i)`,
which returns 0 at end-of-stream) and keeps looping, so a truncated
payload makes it spin forever — modelled as the `hang` outcome and,
operationally, by `wavDrainStep` below. -/

/-- Read exactly `n` bytes or fail (the `len != 1` checks). -/
def readN (n : Nat) (s : List Nat) : Option (List Nat × List Nat) :=
  if n ≤ s.length then some (s.take n, s.drop n) else none

/-- Little-endian 16-bit value of a 2-byte list (`SDL_SwapLE16`). -/
def le16 (b : List Nat) : Nat := b.getD 0 0 + 256 * b.getD 1 0

/-- Little-endian 32-bit value of a 4-byte list (`SDL_SwapLE32`). -/
def le32 (b : List Nat) : Nat :=
  b.getD 0 0 + 256 * b.getD 1 0 + 65536 * b.getD 2 0 + 16777216 * b.getD 3 0

/-- OpenAL buffer formats the loader can select. -/
inductive ALformat where
  | mono8     -- AL_FORMAT_MONO8
  | mono16    -- AL_FORMAT_MONO16
  | stereo8   -- AL_FORMAT_STEREO8
  | stereo16  -- AL_FORMAT_STEREO16
deriving DecidableEq, Repr

/-- Bits per sample carried by a format. -/
def ALformat.bits : ALformat → Nat
  | .mono8 => 8
  | .mono16 => 16
  | .stereo8 => 8
  | .stereo16 => 16

/-- Channel count carried by a format. -/
def ALformat.channelCount : ALformat → Nat
  | .mono8 => 1
  | .mono16 => 1
  | .stereo8 => 2
  | .stereo16 => 2

/-- Outcome of `sound_al_loadWav`: a device buffer with format,
payload and sample rate; the -1 error return; or the non-terminating
drain loop on a truncated data chunk. -/
inductive WavResult where
  | ok (format : ALformat) (payload : List Nat) (rate : Nat)
  | err
  | hang
deriving DecidableEq, Repr

/-- Header walk of `sound_al_loadWav` up to the start of the PCM
payload: RIFF/WAVE magics, the `fmt ` sub-chunk (compression must be
1; the declared bits-per-sample is divided by the channel count into
`align`, exactly as the C does), a skip to the end of the `fmt ` chunk
(16 bytes have been consumed at that point), an optional `fact`
sub-chunk skip, then the `data` magic and payload length.
Returns (channels, rate, align, data length, stream at payload). -/
def parseWavHeader (s0 : List Nat) :
    Option (Nat × Nat × Nat × Nat × List Nat) := do
  let (m1, s1) ← readN 4 s0
  if m1 ≠ [82, 73, 70, 70] then none else do   -- "RIFF"
  let (_flen, s2) ← readN 4 s1                 -- file length, unused
  let (m2, s3) ← readN 4 s2
  if m2 ≠ [87, 65, 86, 69] then none else do   -- "WAVE"
  let (m3, s4) ← readN 4 s3
  if m3 ≠ [102, 109, 116, 32] then none else do -- "fmt "
  let (cl, s5) ← readN 4 s4
  let chunklen := le32 cl
  let (cmp, s6) ← readN 2 s5
  if le16 cmp ≠ 1 then none else do            -- uncompressed PCM only
  let (chb, s7) ← readN 2 s6
  let channels := le16 chb
  let (rb, s8) ← readN 4 s7
  let rate := le32 rb
  let (_avg, s9) ← readN 4 s8                  -- average byte rate, unused
  let (_blk, s10) ← readN 2 s9                 -- block align, unused
  let (bb, s11) ← readN 2 s10                  -- significant bits
  let align := le16 bb / channels              -- `align /= channels;`
  let s12 := s11.drop (chunklen - 16)          -- seek to end of fmt chunk
  let (m4, s13) ← readN 4 s12
  let (m5, sAfter) ←
    (if m4 = [102, 97, 99, 116] then do        -- skip "fact" sub-chunk
      let (fl, sa) ← readN 4 s13
      let sb := sa.drop (le32 fl)
      readN 4 sb
    else some (m4, s13))
  if m5 ≠ [100, 97, 116, 97] then none else do -- "data"
  let (dl, sd) ← readN 4 sAfter
  some (channels, rate, align, le32 dl, sd)

/-- `sound_al_loadWav`: parse the header, drain the payload (a stream
shorter than the declared data length never terminates the drain
loop), then select the format — stereo before mono, each accepting
only `align` 16 or 8, anything else a load error. -/
def sound_al_loadWav (s0 : List Nat) : WavResult :=
  match parseWavHeader s0 with
  | none => .err
  | some (channels, rate, align, dlen, s) =>
    if s.length < dlen then .hang
    else
      let buf := s.take dlen
      if channels = 2 then
        if align = 16 then .ok .stereo16 buf rate
        else if align = 8 then .ok .stereo8 buf rate
        else .err
      else if channels = 1 then
        if align = 16 then .ok .mono16 buf rate
        else if align = 8 then .ok .mono8 buf rate
        else .err
      else .err

/-! ## The payload drain loops

`sound_al_loadWav`:  `while (i < chunklen) i += SDL_RWread(rw, &buf[i], 1, chunklen-i);`
`sound_al_loadOgg`:  `while (i < len)      i += ov_read(vf, &buf[i], len-i, ...);`

One iteration reads at most the bytes still available in the stream
(`SDL_RWread` of a memory stream, and `ov_read` of a decoded bitstream,
both return 0 once the stream is exhausted; neither loop tests for
that).  State: (bytes read so far, bytes still available). -/

/-- One iteration of the WAV data drain loop with declared length `L`. -/
def wavDrainStep (L : Nat) : Nat × List Nat → Nat × List Nat
  | (i, rem) =>
    let r := min (L - i) rem.length
    (i + r, rem.drop r)

/-- One iteration of the OGG PCM drain loop with declared length `L`;
`avail` counts the decodable bytes remaining in the bitstream. -/
def oggDrainStep (L : Nat) : Nat × Nat → Nat × Nat
  | (i, avail) =>
    let r := min (L - i) avail
    (i + r, avail - r)

/-! ## Auxiliary definitions for the statements -/

/-- First group in the list with the given id (the outer `i` scan of
`sound_al_playGroup`). -/
def findGroup (gid : Int) : List AlGroup → Option AlGroup
  | [] => none
  | g :: rest => if g.id = gid then some g else findGroup gid rest

/-- A well-formed WAV byte stream declaring 2 channels, 44100 Hz,
16 bits per sample, with a 4-byte data chunk. -/
def stereo16wav : List Nat :=
  [82, 73, 70, 70] ++ [40, 0, 0, 0] ++ [87, 65, 86, 69] ++
  [102, 109, 116, 32] ++ [16, 0, 0, 0] ++ [1, 0] ++ [2, 0] ++
  [68, 172, 0, 0] ++ [0, 0, 0, 0] ++ [4, 0] ++ [16, 0] ++
  [100, 97, 116, 97] ++ [4, 0, 0, 0] ++ [1, 2, 3, 4]

/-- A well-formed WAV byte stream declaring 2 channels, 44100 Hz,
8 bits per sample, with a 4-byte data chunk. -/
def stereo8wav : List Nat :=
  [82, 73, 70, 70] ++ [40, 0, 0, 0] ++ [87, 65, 86, 69] ++
  [102, 109, 116, 32] ++ [16, 0, 0, 0] ++ [1, 0] ++ [2, 0] ++
  [68, 172, 0, 0] ++ [0, 0, 0, 0] ++ [2, 0] ++ [8, 0] ++
  [100, 97, 116, 97] ++ [4, 0, 0, 0] ++ [1, 2, 3, 4]

/-- A group list with two live groups, ids 1 and 2. -/
def exGroups : List AlGroup :=
  [⟨1, [10], .playing, 0⟩, ⟨2, [11], .playing, 0⟩]

/-- A voice holding source 3 and buffer 9. -/
def wVoice : AlVoice := ⟨3, 9, .playing, (0, 0, 0), (0, 0, 0)⟩

/-- A single group of three sources with id 7. -/
def wGroups : List AlGroup := [⟨7, [1, 2, 3], .playing, 0⟩]

/-! ## Theorems -/

/-- Claim C1, refuted on the code: `sound_al_createGroup(2)` with a
single free source (stack `[5]`, total `[5]`) does return the failure
sentinel 0, but it does NOT leave the pool unchanged — the one source
already pulled is neither in the free stack nor in the general-purpose
list afterwards (both end up empty), a leaked partial reservation.
The `group_err` path only frees the member array and drops the group;
it never pushes the acquired sources back. -/
theorem createGroup_insufficient_pool_leaks :
    (sound_al_createGroup ⟨[5], [5], [], 0⟩ 2).1 = 0 ∧
    (sound_al_createGroup ⟨[5], [5], [], 0⟩ 2).2 = ⟨[], [], [], 1⟩ ∧
    (sound_al_createGroup ⟨[5], [5], [], 0⟩ 2).2.source_stack.length ≠
      ([5] : List Nat).length := by
  decide

/-- Claim C2, refuted on the code: a well-formed linear-PCM container
declaring 2 channels and 16 bits per sample loads, but the device
buffer carries the 8-bit stereo format (`align /= channels` divides
the declared bits-per-sample by the channel count), and the equally
well-formed 2-channel 8-bit container is rejected outright
(16/2 = 8 and 8/2 = 4).  Mono containers are unaffected.  The payload
does match the declared data length. -/
theorem loadWav_stereo_bit_depth_mangled :
    sound_al_loadWav stereo16wav = .ok .stereo8 [1, 2, 3, 4] 44100 ∧
    ALformat.bits .stereo8 = 8 ∧
    sound_al_loadWav stereo8wav = .err := by
  decide

/-- Claim C3, refuted on the code: the payload drain loops test only
`i < length` and add the result of each read, which is 0 once the
stream is exhausted.  From a data chunk declaring 4 bytes over a
stream holding only 2, the WAV loop reads the 2 bytes on its first
iteration and then spins forever at `i = 2 < 4`; the OGG loop behaves
identically on its decoded byte count.  No error is ever returned. -/
theorem drain_loops_spin_on_truncated_stream :
    ∀ n : Nat,
      (wavDrainStep 4)^[n + 1] (0, [1, 2]) = (2, []) ∧
      (2 : Nat) < 4 ∧
      (oggDrainStep 4)^[n + 1] (0, 2) = (2, 0) := by
  intro n
  refine ⟨?_, by norm_num, ?_⟩
  · rw [Function.iterate_succ_apply]
    have h1 : wavDrainStep 4 (0, [1, 2]) = (2, []) := rfl
    rw [h1]
    exact Function.iterate_fixed rfl n
  · rw [Function.iterate_succ_apply]
    have h1 : oggDrainStep 4 (0, 2) = (2, 0) := rfl
    rw [h1]
    exact Function.iterate_fixed rfl n

/-- Claim C4, refuted on the code: the `break` in `sound_al_stopGroup`
sits inside the loop body but outside the `if`, so only the group at
index 0 is ever examined.  Stopping group id 2, which lives at index
1, changes nothing (no `FADING_OUT`, no timestamp); stopping group
id 1 at index 0 works as the claim describes. -/
theorem stopGroup_unreachable_at_nonzero_index :
    sound_al_stopGroup exGroups 2 50 = exGroups ∧
    sound_al_stopGroup exGroups 1 50 =
      [⟨1, [10], .fadeout, 50⟩, ⟨2, [11], .playing, 0⟩] := by
  decide

/-- Claim C6, confirmed: for a voice holding a non-zero source, if the
hardware reports the source `AL_STOPPED` the sweep detaches the buffer
(`AL_BUFFER := AL_NONE`), pushes the source back on the free stack
(count grows by one), zeroes the voice's handle and marks it
`VOICE_STOPPED`; if the source is still playing, the sweep instead
pushes the cached gain (global volume), position and velocity. -/
theorem updateVoice_stopped_reclaims_source (hw : Nat → ALstate) (svol : ℚ)
    (stack : List Nat) (v : AlVoice) (h : v.source ≠ 0) :
    (hw v.source = .stopped →
      sound_al_updateVoice hw svol stack v =
        ({ v with source := 0, state := .stopped }, v.source :: stack,
          [.setBuffer v.source 0]) ∧
      (sound_al_updateVoice hw svol stack v).2.1.length = stack.length + 1) ∧
    (hw v.source = .playing →
      sound_al_updateVoice hw svol stack v =
        (v, stack,
          [.setGain v.source svol, .setPosition v.source v.pos,
           .setVelocity v.source v.vel])) := by
  constructor <;> intro hs <;> simp [sound_al_updateVoice, h, hs]

/-- Witness for C6 at a concrete input: voice `wVoice` holds source 3,
the hardware oracle reports every source stopped. -/
theorem updateVoice_stopped_reclaims_source_witness :
    wVoice.source ≠ 0 ∧
    sound_al_updateVoice (fun _ => ALstate.stopped) 1 [] wVoice =
      ({ wVoice with source := 0, state := .stopped }, [3],
        [.setBuffer 3 0]) :=
  ⟨by decide,
   ((updateVoice_stopped_reclaims_source (fun _ => ALstate.stopped) 1 []
      wVoice (by decide)).1 rfl).1⟩

/-- Claim C8, confirmed: with an empty free pool `sound_al_getSource`
returns the 0 sentinel at once without touching the pool, and
`al_playVoice` (hence `sound_al_play` and `sound_al_playPos`) returns
-1 immediately with an empty OpenAL trace — the voice is dropped
silently, with no hardware call and no error surfaced. -/
theorem getSource_exhausted_play_dropped (svol px py vx vy : ℚ)
    (v : AlVoice) (sbuf : Nat) (rel : Bool) :
    sound_al_getSource [] = (0, []) ∧
    (al_playVoice svol [] v sbuf px py vx vy rel).1 = -1 ∧
    (al_playVoice svol [] v sbuf px py vx vy rel).2.2.2 = [] ∧
    (sound_al_play svol [] v sbuf).1 = -1 ∧
    (sound_al_play svol [] v sbuf).2.2.2 = [] ∧
    (sound_al_playPos svol [] v sbuf px py vx vy).1 = -1 ∧
    (sound_al_playPos svol [] v sbuf px py vx vy).2.2.2 = [] := by
  refine ⟨rfl, ?_, ?_, ?_, ?_, ?_, ?_⟩ <;>
    simp [al_playVoice, sound_al_play, sound_al_playPos, sound_al_getSource]

/-- Claim C9, confirmed: stopping a voice whose source handle is 0
issues no OpenAL call and leaves the voice unchanged, and `al_pausev`
over sources that are all already paused or stopped issues no pause:
both are error-free no-ops. -/
theorem stop_and_pause_idempotent (hw : Nat → ALstate) (voice : AlVoice)
    (srcs : List Nat) (hv : voice.source = 0)
    (hall : ∀ s ∈ srcs, hw s = .paused ∨ hw s = .stopped) :
    sound_al_stop voice = (voice, []) ∧ al_pausev hw srcs = [] := by
  constructor
  · simp [sound_al_stop, hv]
  · simp only [al_pausev, List.filterMap_eq_nil_iff]
    intro s hs
    rcases hall s hs with h | h <;> simp [h]

/-- Witness for C9 at a concrete input: a voice with the 0 handle and
two sources reported paused by the hardware oracle. -/
theorem stop_and_pause_idempotent_witness :
    (⟨0, 9, .stopped, (0, 0, 0), (0, 0, 0)⟩ : AlVoice).source = 0 ∧
    (∀ s ∈ [4, 5], (fun _ => ALstate.paused) s = ALstate.paused ∨
      (fun _ => ALstate.paused) s = ALstate.stopped) ∧
    (sound_al_stop ⟨0, 9, .stopped, (0, 0, 0), (0, 0, 0)⟩ =
      (⟨0, 9, .stopped, (0, 0, 0), (0, 0, 0)⟩, []) ∧
     al_pausev (fun _ => ALstate.paused) [4, 5] = []) :=
  ⟨rfl, by decide,
   stop_and_pause_idempotent (fun _ => ALstate.paused)
     ⟨0, 9, .stopped, (0, 0, 0), (0, 0, 0)⟩ [4, 5] rfl (by decide)⟩

/-- Claim C10, confirmed: `sound_al_volume` stores the value cast to
single precision, unclamped (2 lies outside [0,1] and is stored as 2),
touching no source, and `sound_al_getVolume` returns exactly the
stored single-precision value; the double `1 + 2⁻²⁵` (exactly
representable in binary64) rounds to 1 in binary32, so the set/get
round-trip loses precision for doubles not representable as floats. -/
theorem volume_set_get_roundtrip (vol : ℚ) :
    sound_al_volume vol = (0, round32 vol, []) ∧
    sound_al_getVolume (sound_al_volume vol).2.1 = round32 vol ∧
    round32 2 = 2 ∧
    repr64 (1 + 1/2^25) ∧
    round32 (1 + 1/2^25) = 1 ∧
    ((1 : ℚ) + 1/2^25) ≠ 1 := by
  refine ⟨rfl, rfl, ?_, ⟨2^52 + 2^27, by norm_num⟩, ?_, by norm_num⟩
  · have hl1 : Nat.log2 1 = 0 := by norm_num [Nat.log2]
    have hl2 : Nat.log2 2 = 1 := by norm_num [Nat.log2]
    have habs : |(2:ℚ)| = 2 := by norm_num
    have hfl : floorLog2 2 = 1 := by
      simp only [floorLog2]
      norm_num [hl1, hl2]
    simp only [round32, habs, hfl]
    norm_num [rne]
  · have hl25a : Nat.log2 33554433 = 25 := by norm_num [Nat.log2]
    have hl25b : Nat.log2 33554432 = 25 := by norm_num [Nat.log2]
    have habs : |(1 + 1/2^25 : ℚ)| = 1 + 1/2^25 := by
      rw [abs_of_pos]; norm_num
    have hnum : ((1 + 1/2^25 : ℚ)).num.natAbs = 33554433 := by norm_num
    have hden : ((1 + 1/2^25 : ℚ)).den = 33554432 := by norm_num
    have hfl : floorLog2 (1 + 1/2^25) = 0 := by
      simp only [floorLog2, hnum, hden, hl25a, hl25b]
      norm_num
    simp only [round32, habs, hfl]
    norm_num [rne]

/-- Helper: the member scan of `sound_al_playGroup` always selects a
source when the member array is non-empty. -/
theorem playGroupScan_isSome (hw : Nat → ALstate) (svol : ℚ) (buf : Nat)
    (once : Bool) :
    ∀ srcs : List Nat, srcs ≠ [] →
      (playGroupScan hw svol buf once srcs).isSome = true
  | [], h => absurd rfl h
  | [s], _ => by simp [playGroupScan]
  | s :: s2 :: rest, _ => by
    simp only [playGroupScan]
    split
    · exact playGroupScan_isSome hw svol buf once (s2 :: rest) (by simp)
    · simp

/-- Helper: when every member is busy (playing or paused), the scan
force-stops and reuses the last member, and every call it issues
targets that last member. -/
theorem playGroupScan_all_busy (hw : Nat → ALstate) (svol : ℚ) (buf : Nat)
    (once : Bool) :
    ∀ srcs : List Nat, (∀ s ∈ srcs, hw s = .playing ∨ hw s = .paused) →
      ∀ last, srcs.getLast? = some last →
      playGroupScan hw svol buf once srcs =
        some (last,
          .sourceStop last :: .setGain last svol :: playActs buf once last)
  | [], _, last, h => by simp at h
  | [s], hb, last, h => by
    have hl : s = last := by simpa using h
    subst hl
    have hns : hw s ≠ .stopped := by
      rcases hb s (by simp) with h' | h' <;> simp [h']
    simp [playGroupScan, hns, playActs]
  | s :: s2 :: rest, hb, last, h => by
    have hbusy : hw s = .playing ∨ hw s = .paused := hb s (by simp)
    have h' : (s2 :: rest).getLast? = some last := by
      simpa [List.getLast?_cons_cons] using h
    simp only [playGroupScan, if_pos hbusy]
    exact playGroupScan_all_busy hw svol buf once (s2 :: rest)
      (fun x hx => hb x (by simp [hx])) last h'

/-- Helper: `findGroup` only returns members of the list, with the
requested id. -/
theorem findGroup_mem (gid : Int) :
    ∀ groups : List AlGroup, ∀ g, findGroup gid groups = some g →
      g ∈ groups ∧ g.id = gid
  | [], g, h => by simp [findGroup] at h
  | gh :: rest, g, h => by
    by_cases hid : gh.id = gid
    · have : gh = g := by simpa [findGroup, if_pos hid] using h
      subst this
      exact ⟨by simp, hid⟩
    · have h' : findGroup gid rest = some g := by
        simpa [findGroup, if_neg hid] using h
      have ih := findGroup_mem gid rest g h'
      exact ⟨by simp [ih.1], ih.2⟩

/-- Helper: when a group with the requested id exists (and every
matching group has members), `sound_al_playGroup` returns 0. -/
theorem playGroup_found_ret (hw : Nat → ALstate) (svol : ℚ) (buf : Nat)
    (once : Bool) (gid : Int) :
    ∀ groups : List AlGroup, (∀ g ∈ groups, g.id = gid → g.sources ≠ []) →
      (∃ g ∈ groups, g.id = gid) →
      (sound_al_playGroup hw svol groups gid buf once).1 = 0
  | [], _, hex => by simp at hex
  | g :: rest, hne, hex => by
    by_cases hid : g.id = gid
    · have hnn : g.sources ≠ [] := hne g (by simp) hid
      have hs := playGroupScan_isSome hw svol buf once g.sources hnn
      obtain ⟨p, hp⟩ := Option.isSome_iff_exists.mp hs
      simp [sound_al_playGroup, if_pos hid, hp]
    · have hex' : ∃ g' ∈ rest, g'.id = gid := by
        rcases hex with ⟨g', hg', hid'⟩
        rcases List.mem_cons.mp hg' with rfl | hmem
        · exact absurd hid' hid
        · exact ⟨g', hmem, hid'⟩
      have ih := playGroup_found_ret hw svol buf once gid rest
        (fun x hx => hne x (by simp [hx])) hex'
      simpa [sound_al_playGroup, if_neg hid] using ih

/-- Helper: when no group has the requested id, `sound_al_playGroup`
returns -1. -/
theorem playGroup_notfound (hw : Nat → ALstate) (svol : ℚ) (buf : Nat)
    (once : Bool) (gid : Int) :
    ∀ groups : List AlGroup, (∀ g ∈ groups, g.id ≠ gid) →
      (sound_al_playGroup hw svol groups gid buf once).1 = -1
  | [], _ => rfl
  | g :: rest, hall => by
    have hid : ¬ g.id = gid := hall g (by simp)
    have ih := playGroup_notfound hw svol buf once gid rest
      (fun x hx => hall x (by simp [hx]))
    simpa [sound_al_playGroup, if_neg hid] using ih

/-- Helper: in the all-busy case the whole trace of
`sound_al_playGroup` is the force-stop-and-reuse of the matched
group's last member. -/
theorem playGroup_busy_trace (hw : Nat → ALstate) (svol : ℚ) (buf : Nat)
    (once : Bool) (gid : Int) :
    ∀ groups : List AlGroup, ∀ g, findGroup gid groups = some g →
      (∀ s ∈ g.sources, hw s = .playing ∨ hw s = .paused) →
      ∀ last, g.sources.getLast? = some last →
      (sound_al_playGroup hw svol groups gid buf once).2.2 =
        .sourceStop last :: .setGain last svol :: playActs buf once last
  | [], g, hf, _, last, _ => by simp [findGroup] at hf
  | gh :: rest, g, hf, hb, last, hl => by
    by_cases hid : gh.id = gid
    · have : gh = g := by simpa [findGroup, if_pos hid] using hf
      subst this
      have hscan := playGroupScan_all_busy hw svol buf once gh.sources hb last hl
      simp [sound_al_playGroup, if_pos hid, hscan]
    · have hf' : findGroup gid rest = some g := by
        simpa [findGroup, if_neg hid] using hf
      have ih := playGroup_busy_trace hw svol buf once gid rest g hf' hb last hl
      simpa [sound_al_playGroup, if_neg hid] using ih

/-- Claim C5, confirmed (for groups with at least one member, the only
kind the claim's starvation policy speaks about): when a group with
id `gid` exists `sound_al_playGroup` returns success; it returns -1
exactly when no group has that id; and when every member of the
matched group is busy (playing or paused) the call force-stops and
reuses precisely the last member — the whole OpenAL trace targets
`getLast?`, so members 0 through N-2 are untouched. -/
theorem playGroup_busy_reuses_last_member (hw : Nat → ALstate) (svol : ℚ)
    (buf : Nat) (once : Bool) (gid : Int) (groups : List AlGroup)
    (hne : ∀ g ∈ groups, g.id = gid → g.sources ≠ []) :
    ((∃ g ∈ groups, g.id = gid) →
      (sound_al_playGroup hw svol groups gid buf once).1 = 0) ∧
    ((∀ g ∈ groups, g.id ≠ gid) →
      (sound_al_playGroup hw svol groups gid buf once).1 = -1) ∧
    (∀ g, findGroup gid groups = some g →
      (∀ s ∈ g.sources, hw s = .playing ∨ hw s = .paused) →
      ∃ last, g.sources.getLast? = some last ∧
        (sound_al_playGroup hw svol groups gid buf once).2.2 =
          .sourceStop last :: .setGain last svol :: playActs buf once last) := by
  refine ⟨playGroup_found_ret hw svol buf once gid groups hne,
          playGroup_notfound hw svol buf once gid groups, ?_⟩
  intro g hf hb
  obtain ⟨hmem, hgid⟩ := findGroup_mem gid groups g hf
  have hnn : g.sources ≠ [] := hne g hmem hgid
  have hsome : g.sources.getLast?.isSome := by
    rw [List.getLast?_isSome]
    exact hnn
  obtain ⟨last, hl⟩ := Option.isSome_iff_exists.mp hsome
  exact ⟨last, hl,
    playGroup_busy_trace hw svol buf once gid groups g hf hb last hl⟩

/-- Witness for C5 at a concrete input: the one group of `wGroups`
(id 7, three members) with every source reported playing. -/
theorem playGroup_busy_reuses_last_member_witness :
    (∀ g ∈ wGroups, g.id = (7:Int) → g.sources ≠ []) ∧
    (sound_al_playGroup (fun _ => ALstate.playing) 1 wGroups 7 9 true).1 = 0 :=
  ⟨by decide,
   (playGroup_busy_reuses_last_member (fun _ => ALstate.playing) 1 9 true 7
      wGroups (by decide)).1 ⟨⟨7, [1, 2, 3], .playing, 0⟩, by decide, rfl⟩⟩

/-- Claim C7, confirmed: a group in `FADING_OUT` with elapsed time
`f = t - fade_timer` has every member's gain set to
`(1 - f/100) * svolume` while `f < 100` — a quantity strictly
decreasing in `f` whenever the global volume is positive — and once
`f ≥ 100` every member is stopped, its buffer detached and its gain
restored to the full global volume, and the group returns to the
`PLAYING` state. -/
theorem update_fadeout_gain_schedule (svol : ℚ) (t f : Nat)
    (groups : List AlGroup) (g : AlGroup) (hg : g ∈ groups)
    (hst : g.state = .fadeout) (ht : t = g.fade_timer + f) :
    (f < SOUND_FADEOUT →
      ∀ s ∈ g.sources,
        ALaction.setGain s (fadeGain svol f) ∈
          (sound_al_update svol t groups).2) ∧
    (∀ f1 f2 : Nat, f1 < f2 → f2 < SOUND_FADEOUT → 0 < svol →
      fadeGain svol f2 < fadeGain svol f1) ∧
    (SOUND_FADEOUT ≤ f →
      (∀ s ∈ g.sources,
        ALaction.sourceStop s ∈ (sound_al_update svol t groups).2 ∧
        ALaction.setBuffer s 0 ∈ (sound_al_update svol t groups).2 ∧
        ALaction.setGain s svol ∈ (sound_al_update svol t groups).2) ∧
      { g with state := .playing } ∈ (sound_al_update svol t groups).1) := by
  have hf : t - g.fade_timer = f := by simp [ht]
  refine ⟨?_, ?_, ?_⟩
  · intro hlt s hs
    refine List.mem_flatMap.mpr ⟨g, hg, ?_⟩
    simp only [updateGroup, hst, hf, if_pos hlt]
    simpa using hs
  · intro f1 f2 h12 h2 hsv
    have hc : (f1 : ℚ) < f2 := by exact_mod_cast h12
    simp only [fadeGain, SOUND_FADEOUT]
    apply mul_lt_mul_of_pos_right _ hsv
    have h100 : ((100:Nat) : ℚ) = 100 := by norm_num
    rw [h100]
    linarith
  · intro hge
    have hnlt : ¬ (t - g.fade_timer < SOUND_FADEOUT) := by
      rw [hf]; exact Nat.not_lt.mpr hge
    constructor
    · intro s hs
      refine ⟨?_, ?_, ?_⟩ <;>
        refine List.mem_flatMap.mpr ⟨g, hg, ?_⟩ <;>
        · simp only [updateGroup, hst, if_neg hnlt]
          simpa using hs
    · refine List.mem_map.mpr ⟨g, hg, ?_⟩
      simp only [updateGroup, hst, if_neg hnlt]
      simp

/-- Witness for C7 at a concrete input: one group (id 1, member 4)
fading since tick 10, updated at tick 60 (elapsed 50 < 100). -/
theorem update_fadeout_gain_schedule_witness :
    ((⟨1, [4], .fadeout, 10⟩ : AlGroup) ∈
        ([⟨1, [4], .fadeout, 10⟩] : List AlGroup)) ∧
    (⟨1, [4], .fadeout, 10⟩ : AlGroup).state = .fadeout ∧
    (60 = (⟨1, [4], .fadeout, 10⟩ : AlGroup).fade_timer + 50) ∧
    ALaction.setGain 4 (fadeGain 1 50) ∈
      (sound_al_update 1 60 [⟨1, [4], .fadeout, 10⟩]).2 :=
  ⟨by simp, rfl, by decide,
   (update_fadeout_gain_schedule 1 60 50 [⟨1, [4], .fadeout, 10⟩]
      ⟨1, [4], .fadeout, 10⟩ (by simp) rfl (by decide)).1 (by decide) 4 (by simp)⟩

end SoundAL
